import Mathlib

/-
Shallow embedding of the Loungebot loyalty core (src/loungebot/level_cards.py,
src/loungebot/admin_stats.py, src/loungebot/admin_roles.py, src/bot.py).

Modelling conventions:
- Instants of time are integers ("minutes").  All stored timestamps are compared
  after conversion to the fixed reference (Tyumen) timezone in the source, so a
  timestamp here is directly the converted instant; an unparseable stored
  timestamp (datetime.fromisoformat failure) is `none`.
- The start of calendar month (y, m) is linearised as `(y*12 + (m-1)) * 100000`,
  which preserves the ordering of month starts and leaves room for arbitrarily
  many event instants inside each month; no claim depends on month lengths.
- A day is 1440 minutes (`timedelta(days=d)` becomes `d * 1440`).
- Python dicts become association lists in insertion order; Python sets become
  lists queried by membership.
- `random.SystemRandom` draws are passed in as an explicit list of results
  (the source performs at most 5000 draws; the claims do not depend on the
  count). Falsy/skipped raw events are events with `ts = none`.
-/

/-- Minutes in a day; `timedelta(days=d)` is modelled as `d * minutesPerDay`. -/
def minutesPerDay : Int := 1440

/-- Start of calendar month (y, m) on the linearised time axis
(`datetime(year, month, 1, tzinfo=tz)` in the source). -/
def monthStartMin (year month : Int) : Int :=
  (year * 12 + (month - 1)) * 100000

/- ## level_cards.py : tier table and tier functions -/

/-- TIERS table from level_cards.py: (visit threshold, label, discount %). -/
def TIERS : List (Int × String × Int) :=
  [(1, "IRON⚙️", 3), (5, "BRONZE🥉", 5), (15, "SILVER🥈", 7), (35, "GOLD🥇", 10)]

/-- Loop body of `tier_for_visits`: iterate ascending, keep the last tier whose
threshold is ≤ v, stop at the first larger threshold. -/
def tierScan (v : Int) (cur : String × Int) : List (Int × String × Int) → String × Int
  | [] => cur
  | (t, lvl, d) :: rest => if t ≤ v then tierScan v (lvl, d) rest else cur

/-- Embeds `tier_for_visits` from level_cards.py.  Note the explicit
`if v <= 0: return ("-", 0)` branch in the source. -/
def tier_for_visits (visits : Int) : String × Int :=
  if visits ≤ 0 then ("-", 0)
  else
    match TIERS with
    | [] => ("-", 0)
    | (_, l0, d0) :: _ => tierScan visits (l0, d0) TIERS

/-- Loop of `next_tier_info`: first threshold strictly greater than v. -/
def nextTierScan (v : Int) : List (Int × String × Int) → Option (String × Int)
  | [] => none
  | (t, lvl, _) :: rest => if v < t then some (lvl, t - v) else nextTierScan v rest

/-- Embeds `next_tier_info` from level_cards.py: (next label, remaining visits), or
none when already at the top tier. -/
def next_tier_info (visits : Int) : Option (String × Int) :=
  nextTierScan visits TIERS

/- ## level_cards.py : card records -/

/-- Stored card record (the dict kept in `by_number`). -/
structure CardRec where
  user_id : Int
  username : Option String
  first_name : Option String
  last_name : Option String
  level : String
  discount : Int
  visits : Int
  staff_gold : Bool
  staff_level : Option String
  staff_discount : Option Int

/-- Card value returned to callers (`LevelCard` dataclass). -/
structure LevelCard where
  card_number : String
  user_id : Int
  username : Option String
  first_name : Option String
  last_name : Option String
  level : String
  discount : Int
  visits : Int
  staff_gold : Bool

/-- Python `str.strip()` character class (whitespace). -/
def isSpaceChar (c : Char) : Bool :=
  c = ' ' || c = '\t' || c = '\n' || c = '\r'

/-- Python `str.strip()` on the character list of a string. -/
def trimChars (l : List Char) : List Char :=
  ((l.dropWhile isSpaceChar).reverse.dropWhile isSpaceChar).reverse

/-- Python `s.strip()` as a String function. -/
def stripStr (s : String) : String :=
  String.mk (trimChars s.data)

/-- Embeds `_recalc` from level_cards.py: recompute level/discount from visits, unless
the staff override is set (staff level label defaults to ADMIN🐧, staff
discount to 10; a falsy stored staff_discount of 0 also falls back to 10). -/
def recalcCard (rec : CardRec) : CardRec :=
  if rec.staff_gold then
    let lvl :=
      match rec.staff_level with
      | some s => if stripStr s = "" then "ADMIN🐧" else stripStr s
      | none => "ADMIN🐧"
    let disc :=
      match rec.staff_discount with
      | some d => if d = 0 then 10 else d
      | none => 10
    { rec with level := lvl, discount := disc }
  else
    let ld := tier_for_visits rec.visits
    { rec with level := ld.1, discount := ld.2 }

/-- Embeds `_to_card` from level_cards.py.  Python truthiness of the stored fields:
`rec.get("level") or "IRON⚙️"` maps an empty level to IRON, and
`int(rec.get("discount", 3) or 3)` maps a stored 0 discount to 3. -/
def to_card (card_number : String) (rec : CardRec) : LevelCard :=
  { card_number := card_number
    user_id := rec.user_id
    username := rec.username
    first_name := rec.first_name
    last_name := rec.last_name
    level := if rec.level = "" then "IRON⚙️" else rec.level
    discount := if rec.discount = 0 then 3 else rec.discount
    visits := rec.visits
    staff_gold := rec.staff_gold }

/-- The fresh record written by `ensure_level_card` for a user with no card. -/
def newCardRec (user_id : Int) (username first_name last_name : Option String) : CardRec :=
  { user_id := user_id
    username := username
    first_name := first_name
    last_name := last_name
    level := "IRON⚙️"
    discount := 3
    visits := 0
    staff_gold := false
    staff_level := none
    staff_discount := none }

/-- New-user branch of `ensure_level_card` from level_cards.py: build the fresh
record, `_recalc` it, and return `_to_card` of it.  The allocated card number is
passed in (allocation is modelled separately below). -/
def ensure_level_card_new (card_number : String) (user_id : Int)
    (username first_name last_name : Option String) : LevelCard :=
  to_card card_number (recalcCard (newCardRec user_id username first_name last_name))

/- ## level_cards.py : card number allocation -/

/-- The four decimal digits of `f"{n:04d}"` (n ≤ 9998 in all uses). -/
def digits4 (n : Nat) : List Nat :=
  [n / 1000 % 10, n / 100 % 10, n / 10 % 10, n % 10]

/-- The 4-character string `f"{n:04d}"`. -/
def fmt4 (n : Nat) : String :=
  String.mk ((digits4 n).map (fun k => Char.ofNat (48 + k)))

/-- Embeds `_is_bad_number` from level_cards.py: all four digits identical. -/
def is_bad_number (n : Nat) : Bool :=
  (n / 1000 % 10 == n / 100 % 10) && (n / 100 % 10 == n / 10 % 10) &&
    (n / 10 % 10 == n % 10)

/-- Random phase of `_alloc_random_card_number`: walk the sequence of RNG draws,
skipping repdigits and collisions, returning the first acceptable draw. -/
def randPhase (used : List String) : List Nat → Option String
  | [] => none
  | d :: rest =>
    if is_bad_number d then randPhase used rest
    else if fmt4 d ∈ used then randPhase used rest
    else some (fmt4 d)

/-- Fallback phase of `_alloc_random_card_number`: deterministic ascending scan
over `range(10, 9999)` for the first free non-repdigit number. -/
def scanPhase (used : List String) : Option String :=
  ((List.range' 10 9989).find? fun n =>
    !is_bad_number n && decide (fmt4 n ∉ used)).map fmt4

/-- Embeds `_alloc_random_card_number` from level_cards.py; `none` models the
`RuntimeError("No available card numbers")` raise. -/
def alloc_random_card_number (used : List String) (draws : List Nat) : Option String :=
  match randPhase used draws with
  | some s => some s
  | none => scanPhase used

/-- Allocating a sequence of cards: each allocated number is registered in
`by_number` (so it joins the used set) before the next allocation, as
`ensure_level_card` does. -/
def allocCards (used : List String) : List (List Nat) → Option (List String)
  | [] => some []
  | draws :: rest =>
    match alloc_random_card_number used draws with
    | none => none
    | some s =>
      match allocCards (s :: used) rest with
      | none => none
      | some l => some (s :: l)

/- ## admin_stats.py : event store -/

/-- A confirmed visit event after `_event_src` / `_parse_event_ts`
normalisation: `src` is the lowercased source tag (legacy raws get "lounge"),
`ts` is the parsed instant or `none` when parsing fails (falsy raw events are
events with `ts = none`). -/
structure VisitEvent where
  src : String
  ts : Option Int

/-- A broadcast event: `kind` is the stored kind when it is a string (legacy
string-form events have no kind), `ts` the parsed instant. -/
structure BroadcastEvent where
  kind : Option String
  ts : Option Int

/-- A stored user record (the per-user dict in admin_stats.json), restricted to
the fields the verified functions read. `unsubscribed_at = none` is null
(subscribed); Python truthiness of the field is `isSome`. -/
structure UserRec where
  username : Option String
  unsubscribed_at : Option Int
  visit_events : List VisitEvent
  broadcast_events : List BroadcastEvent

/-- The users mapping, in dict insertion order (keys unique in Python). -/
abbrev Store := List (Int × UserRec)

/-- Dictionary lookup `users.get(str(int(uid)))`. -/
def lookupUser (store : Store) (uid : Int) : Option UserRec :=
  (store.find? fun p => decide (p.1 = uid)).map Prod.snd

/-- Embeds `_BROADCAST_IGNORE_KINDS` from admin_stats.py. -/
def BROADCAST_IGNORE_KINDS : List String := ["contest"]

/-- Kind test in `_last_broadcast_ts`: a dict event whose kind is a string in
the ignore set is skipped by cooldown logic. -/
def isIgnoredKind (kind : Option String) : Bool :=
  match kind with
  | some k => decide (k ∈ BROADCAST_IGNORE_KINDS)
  | none => false

/-- Embeds `_last_broadcast_ts` from admin_stats.py: latest parseable timestamp among
non-ignored broadcast events. -/
def last_broadcast_ts (events : List BroadcastEvent) : Option Int :=
  events.foldl
    (fun last e =>
      if isIgnoredKind e.kind then last
      else
        match e.ts with
        | none => last
        | some t =>
          match last with
          | none => some t
          | some l => if l < t then some t else some l)
    none

/-- Embeds `filter_user_ids_by_broadcast_cooldown` from admin_stats.py: keep the ids
whose record is absent, or has no (non-ignored, parseable) broadcast timestamp,
or whose latest such timestamp is older than the cutoff. -/
def filter_user_ids_by_broadcast_cooldown (store : Store) (now : Int)
    (user_ids : List Int) (days : Int) : List Int :=
  let cutoff := now - days * minutesPerDay
  user_ids.filter fun uid =>
    match lookupUser store uid with
    | none => true
    | some rec =>
      match last_broadcast_ts rec.broadcast_events with
      | none => true
      | some l => decide (l < cutoff)

/-- Source filter in the visit-event loops: when a source scope is given, only
events whose `_event_src` equals it are considered. -/
def matchesSrc (src? : Option String) (e : VisitEvent) : Bool :=
  match src? with
  | none => true
  | some s => decide (e.src = s)

/-- Embeds `_last_visit_ts` from admin_stats.py: latest parseable timestamp among
visit events in the source scope. -/
def last_visit_ts (src? : Option String) (events : List VisitEvent) : Option Int :=
  events.foldl
    (fun last e =>
      if !matchesSrc src? e then last
      else
        match e.ts with
        | none => last
        | some t =>
          match last with
          | none => some t
          | some l => if l < t then some t else some l)
    none

/-- Embeds `users_last_visit_older_than_days` from admin_stats.py: active users whose
last confirmed visit is older than `days`; users with no (parseable, in-scope)
visit are not included. -/
def users_last_visit_older_than_days (store : Store) (now : Int) (days : Int)
    (src? : Option String) : List Int :=
  let cutoff := now - days * minutesPerDay
  store.filterMap fun p =>
    if p.2.unsubscribed_at.isSome then none
    else
      match last_visit_ts src? p.2.visit_events with
      | none => none
      | some l => if l < cutoff then some p.1 else none

/- ## admin_stats.py : monthly leaderboard -/

/-- One leaderboard row ({user_id, visits}). -/
structure Row where
  user_id : Int
  visits : Nat

deriving instance DecidableEq for Row

/-- Number of in-scope visit events whose parsed instant falls in
[startT, endT) (the month window after timezone conversion). -/
def countVisitsBetween (src? : Option String) (startT endT : Int)
    (events : List VisitEvent) : Nat :=
  (events.filter fun e =>
    matchesSrc src? e &&
      match e.ts with
      | none => false
      | some t => decide (startT ≤ t) && decide (t < endT)).length

/-- The comparison realised by `rows.sort(key=lambda r: (visits, user_id),
reverse=True)`: descending lexicographic order on (visits, user_id). -/
abbrev rowOrder (a b : Row) : Prop :=
  b.visits < a.visits ∨ (a.visits = b.visits ∧ b.user_id ≤ a.user_id)

instance : IsTotal Row rowOrder :=
  ⟨by intro a b; unfold rowOrder; omega⟩

instance : IsTrans Row rowOrder :=
  ⟨by intro a b c hab hbc; unfold rowOrder at *; omega⟩

/-- Embeds `top_users_by_visits_in_month` from admin_stats.py: month and limit are
clamped, per-user in-month visit counts are collected (users with count 0 are
dropped; the unsubscribed filter applies only when `active_only`), rows are
sorted by (visits, user_id) descending, and the first `limit` rows returned. -/
def top_users_by_visits_in_month (store : Store) (year month : Int)
    (src? : Option String) (limit : Int) (active_only : Bool) : List Row :=
  let month := if month < 1 then 1 else if month > 12 then 12 else month
  let limit := if limit ≤ 0 then 3 else limit
  let startT := monthStartMin year month
  let endT := if month = 12 then monthStartMin (year + 1) 1 else monthStartMin year (month + 1)
  let rows := store.filterMap fun p =>
    if active_only && p.2.unsubscribed_at.isSome then none
    else
      let v := countVisitsBetween src? startT endT p.2.visit_events
      if v > 0 then some ⟨p.1, v⟩ else none
  (List.insertionSort rowOrder rows).take limit.toNat

/- ## admin_roles.py -/

/-- An admin record (`admins` dict entry keyed by normalised username). -/
structure AdminRec where
  username : String
  user_id : Option Int

/-- Embeds `normalize_username` from admin_roles.py: strip, drop a leading @,
lowercase (implemented structurally on the character list). -/
def normalize_username (value : String) : String :=
  let l := trimChars value.data
  let l :=
    match l with
    | '@' :: rest => rest
    | _ => l
  String.mk (l.map Char.toLower)

/-- Embeds `admin_user_ids` from admin_roles.py: admin ids already synced. -/
def admin_user_ids (admins : List AdminRec) : List Int :=
  admins.filterMap (·.user_id)

/- ## bot.py : staff set, leaderboard rewards -/

/-- Embeds `_BONUS_BY_PLACE` from bot.py (dict .get with default 0). -/
def BONUS_BY_PLACE (place : Nat) : Int :=
  if place = 1 then 10 else if place = 2 then 6 else if place = 3 then 3 else 0

/-- Embeds `_MEDAL_BY_PLACE` from bot.py (dict .get, absent key gives none). -/
def MEDAL_BY_PLACE (place : Nat) : Option String :=
  if place = 1 then some "🥇" else if place = 2 then some "🥈"
  else if place = 3 then some "🥉" else none

/-- Embeds `_prev_month` from bot.py. -/
def prev_month (y m : Int) : Int × Int :=
  if m = 1 then (y - 1, 12) else (y, m - 1)

/-- Python tuple comparison `(y1, m1) < (y2, m2)`. -/
abbrev monthPairLt (a b : Int × Int) : Prop :=
  a.1 < b.1 ∨ (a.1 = b.1 ∧ a.2 < b.2)

/-- Python tuple comparison `(y1, m1) <= (y2, m2)`. -/
abbrev monthPairLe (a b : Int × Int) : Prop :=
  a.1 < b.1 ∨ (a.1 = b.1 ∧ a.2 ≤ b.2)

/-- Embeds `_staff_user_ids_known` from bot.py: superadmins (env-configured ids),
admins with a synced user id, and any active user whose normalised username
matches a known admin username (the source fetches each active user's record;
here the record is at hand in the same pass). -/
def staff_user_ids_known (superIds : List Int) (admins : List AdminRec)
    (store : Store) : List Int :=
  let adminNames := admins.map fun a => normalize_username a.username
  (superIds ++ admin_user_ids admins) ++
    store.filterMap fun p =>
      if p.2.unsubscribed_at.isSome then none
      else
        match p.2.username with
        | none => none
        | some u =>
          let nu := normalize_username u
          if nu ≠ "" ∧ nu ∈ adminNames then some p.1 else none

/-- Embeds `is_eligible_for_competitions` from bot.py: not in the staff set. -/
def is_eligible_for_competitions (staff : List Int) (uid : Int) : Bool :=
  decide (uid ∉ staff)

/-- Reward loop of `_monthly_bonus_map_for_prev_month`: walk the rows, skip
ineligible users, assign the place bonus, stop after place 3. -/
def bonusAssign (staff : List Int) : Nat → List Row → List (Int × Int)
  | _, [] => []
  | place, r :: rest =>
    if r.user_id ∈ staff then bonusAssign staff place rest
    else
      (r.user_id, BONUS_BY_PLACE (place + 1)) ::
        (if place + 1 ≥ 3 then [] else bonusAssign staff (place + 1) rest)

/-- Embeds `_monthly_bonus_map_for_prev_month` from bot.py: empty before the launch
month (March 2026), otherwise the reward map over the previous month's top-3
rows (fetched with `active_only=False`). -/
def monthly_bonus_map_for_prev_month (superIds : List Int) (admins : List AdminRec)
    (store : Store) (botSource : String) (nowY nowM : Int) : List (Int × Int) :=
  let pm := prev_month nowY nowM
  if monthPairLt pm (2026, 3) then []
  else
    bonusAssign (staff_user_ids_known superIds admins store) 0
      (top_users_by_visits_in_month store pm.1 pm.2 (some botSource) 3 false)

/-- Embeds `bonus_discount_for_user` from bot.py: 0 for ineligible (staff) users,
otherwise the bonus-map entry (default 0). -/
def bonus_discount_for_user (superIds : List Int) (admins : List AdminRec)
    (store : Store) (botSource : String) (nowY nowM : Int) (uid : Int) : Int :=
  let staff := staff_user_ids_known superIds admins store
  if !is_eligible_for_competitions staff uid then 0
  else
    (((monthly_bonus_map_for_prev_month superIds admins store botSource nowY nowM).find?
      fun p => decide (p.1 = uid)).map Prod.snd).getD 0

/-- Month generator behind `_iter_months_inclusive` (fuel = number of months). -/
def monthsFrom : Nat → Int → Int → List (Int × Int)
  | 0, _, _ => []
  | n + 1, y, m =>
    (y, m) :: (if m = 12 then monthsFrom n (y + 1) 1 else monthsFrom n y (m + 1))

/-- Embeds `_iter_months_inclusive` from bot.py, for calendar-valid month pairs: all
months from (sy, sm) to (ey, em) inclusive in chronological order. -/
def iter_months_inclusive (sy sm ey em : Int) : List (Int × Int) :=
  if monthPairLe (sy, sm) (ey, em) then
    monthsFrom ((ey * 12 + em - (sy * 12 + sm)).toNat + 1) sy sm
  else []

/-- Medal loop of `medals_for_user` for one month's rows: skip uid 0 and staff,
collect the medal at the user's place, stop after place 3. -/
def medalPick (staff : List Int) (uid : Int) : Nat → List Row → List String
  | _, [] => []
  | place, r :: rest =>
    if r.user_id = 0 ∨ r.user_id ∈ staff then medalPick staff uid place rest
    else
      (if r.user_id = uid then (MEDAL_BY_PLACE (place + 1)).toList else []) ++
        (if place + 1 ≥ 3 then [] else medalPick staff uid (place + 1) rest)

/-- Embeds `medals_for_user` from bot.py: empty for staff, empty before the launch
month, otherwise the concatenation of medals earned over all completed months
from March 2026 through the previous month (leaderboards fetched with
`active_only=False`). -/
def medals_for_user (superIds : List Int) (admins : List AdminRec) (store : Store)
    (botSource : String) (nowY nowM : Int) (uid : Int) : String :=
  let staff := staff_user_ids_known superIds admins store
  if !is_eligible_for_competitions staff uid then ""
  else
    let e := prev_month nowY nowM
    if monthPairLt e (2026, 3) then ""
    else
      String.join ((iter_months_inclusive 2026 3 e.1 e.2).map fun ym =>
        String.join (medalPick staff uid 0
          (top_users_by_visits_in_month store ym.1 ym.2 (some botSource) 3 false)))

/- ## Concrete stores used in counterexamples and witnesses -/

/-- A subscribed user with `n` identical in-month visit events at instant `t`
(source tag "lounge") and no broadcast history. -/
def mkVisitUser (n : Nat) (t : Int) : UserRec :=
  { username := none
    unsubscribed_at := none
    visit_events := List.replicate n ⟨"lounge", some t⟩
    broadcast_events := [] }

/-- An instant inside March 2026 (its month start on the linearised axis). -/
def tsMarch2026 : Int := monthStartMin 2026 3

/-- An instant inside February 2026. -/
def tsFeb2026 : Int := monthStartMin 2026 2

/-- Two users tied at one visit each in March 2026. -/
def c1Store : Store :=
  [(1, mkVisitUser 1 tsMarch2026), (2, mkVisitUser 1 tsMarch2026)]

/-- User 10 (staff) tops March 2026 with 4 visits; non-staff users 20, 30, 40
follow with 3, 2, 1 visits. -/
def c3Store : Store :=
  [(10, mkVisitUser 4 tsMarch2026), (20, mkVisitUser 3 tsMarch2026),
   (30, mkVisitUser 2 tsMarch2026), (40, mkVisitUser 1 tsMarch2026)]

/-- One user with one visit event in February 2026 (before the launch month). -/
def c4Store : Store := [(1, mkVisitUser 1 tsFeb2026)]

/-- An admin known only by username (user id never synced). -/
def c10Admins : List AdminRec := [⟨"boss", none⟩]

/-- User 10 is the username-matched admin "boss" and tops March 2026; user 20
is an ordinary guest. -/
def c10StoreA : Store :=
  [(10, { username := some "boss"
          unsubscribed_at := none
          visit_events := List.replicate 5 ⟨"lounge", some tsMarch2026⟩
          broadcast_events := [] }),
   (20, mkVisitUser 3 tsMarch2026)]

/-- The same store with user 10 marked unsubscribed — the only changed field. -/
def c10StoreB : Store :=
  [(10, { username := some "boss"
          unsubscribed_at := some 0
          visit_events := List.replicate 5 ⟨"lounge", some tsMarch2026⟩
          broadcast_events := [] }),
   (20, mkVisitUser 3 tsMarch2026)]

/-- The single-user February store with user 1 marked unsubscribed: it differs
from `c4Store` only in the `unsubscribed_at` field. -/
def c4StoreUnsub : Store :=
  [(1, { username := none
         unsubscribed_at := some 5
         visit_events := List.replicate 1 ⟨"lounge", some tsFeb2026⟩
         broadcast_events := [] })]

/- ## Derived views used by the proofs -/

/-- The running-maximum fold shared by `_last_broadcast_ts` and
`_last_visit_ts`. -/
def foldMax (init : Option Int) (l : List Int) : Option Int :=
  l.foldl
    (fun last t =>
      match last with
      | none => some t
      | some x => if x < t then some t else some x)
    init

/-- The timestamps `_last_broadcast_ts` actually considers: parseable
timestamps of non-ignored events. -/
def broadcastTsList (events : List BroadcastEvent) : List Int :=
  events.filterMap fun e => if isIgnoredKind e.kind then none else e.ts

/-- The timestamps `_last_visit_ts` actually considers: parseable timestamps of
in-scope events. -/
def visitTsList (src? : Option String) (events : List VisitEvent) : List Int :=
  events.filterMap fun e => if !matchesSrc src? e then none else e.ts

/-- Specification-side predicate for the cooldown claim, following the spec's
words: the record contains a broadcast event of a non-exempt kind with a
parseable timestamp within the cooldown window (at or after the cutoff). -/
def recentNonExemptBroadcast (cutoff : Int) (rec : UserRec) : Bool :=
  rec.broadcast_events.any fun e =>
    !isIgnoredKind e.kind &&
      match e.ts with
      | some t => decide (cutoff ≤ t)
      | none => false

/- ## Tier function shape lemmas -/

/-- Closed form of `tier_for_visits` over the concrete TIERS table. -/
theorem tier_for_visits_eq (v : Int) :
    tier_for_visits v =
      if v ≤ 0 then ("-", 0)
      else if v < 5 then ("IRON⚙️", 3)
      else if v < 15 then ("BRONZE🥉", 5)
      else if v < 35 then ("SILVER🥈", 7)
      else ("GOLD🥇", 10) := by
  unfold tier_for_visits TIERS
  simp only [tierScan]
  split_ifs <;> first | rfl | omega

/-- Closed form of the discount component of `tier_for_visits`. -/
theorem tier_discount_eq (v : Int) :
    (tier_for_visits v).2 =
      if v ≤ 0 then 0
      else if v < 5 then 3
      else if v < 15 then 5
      else if v < 35 then 7
      else 10 := by
  rw [tier_for_visits_eq]
  split_ifs <;> rfl

/-- Closed form of `next_tier_info` over the concrete TIERS table. -/
theorem next_tier_info_eq (v : Int) :
    next_tier_info v =
      if v < 1 then some ("IRON⚙️", 1 - v)
      else if v < 5 then some ("BRONZE🥉", 5 - v)
      else if v < 15 then some ("SILVER🥈", 15 - v)
      else if v < 35 then some ("GOLD🥇", 35 - v)
      else none := by
  unfold next_tier_info TIERS
  simp only [nextTierScan]

/- ## C2 : tier below the first threshold / fresh card -/

/-- C2 (counterexample). The claim says visit counts below the first threshold
get the first tier (IRON, 3%) and that a fresh card has level IRON: but
`tier_for_visits 0 = ("-", 0)` and a freshly registered card (visits = 0) is
recalculated to level "-" before being returned. -/
theorem C2_counterexample :
    tier_for_visits 0 ≠ ("IRON⚙️", 3)
    ∧ (ensure_level_card_new "4821" 7 none none none).level ≠ "IRON⚙️" := by
  constructor <;> decide

/-- C2 (amended). For every visit count v ≤ 0 — in particular the only
non-negative count below the first threshold, v = 0 — `tier_for_visits` returns
the sentinel ("-", 0) and not the first tier; a freshly registered card has
visits = 0 and level "-", and reports a 3% discount only because `_to_card`
coerces the stored falsy discount 0 back to the default 3. -/
theorem C2_fresh_card_sentinel (v : Int) (hv : v ≤ 0) (num : String) (uid : Int)
    (un fn ln : Option String) :
    tier_for_visits v = ("-", 0)
    ∧ (ensure_level_card_new num uid un fn ln).visits = 0
    ∧ (ensure_level_card_new num uid un fn ln).level = "-"
    ∧ (ensure_level_card_new num uid un fn ln).discount = 3 := by
  refine ⟨?_, rfl, rfl, rfl⟩
  rw [tier_for_visits_eq, if_pos hv]

/-- C2 witness: the amended statement evaluated at v = 0 and a concrete user. -/
theorem C2_fresh_card_sentinel_witness :
    tier_for_visits 0 = ("-", 0)
    ∧ (ensure_level_card_new "4821" 7 none none none).visits = 0
    ∧ (ensure_level_card_new "4821" 7 none none none).level = "-"
    ∧ (ensure_level_card_new "4821" 7 none none none).discount = 3 :=
  C2_fresh_card_sentinel 0 (by decide) "4821" 7 none none none

/- ## C9 : discount monotonicity and next_tier_info consistency -/

/-- C9 (confirmed). For 0 ≤ v ≤ w the tier discount is monotonically
non-decreasing; whenever `next_tier_info v` returns (label, remaining), that
label appears in TIERS with a threshold t such that remaining = t - v and
v < t; and `next_tier_info v = none` exactly when v meets or exceeds the
highest threshold (35). -/
theorem C9_tier_monotone_and_next (v w : Int) (hv : 0 ≤ v) (hvw : v ≤ w) :
    (tier_for_visits v).2 ≤ (tier_for_visits w).2
    ∧ (∀ lbl rem, next_tier_info v = some (lbl, rem) →
        ∃ t d, (t, lbl, d) ∈ TIERS ∧ rem = t - v ∧ v < t)
    ∧ (next_tier_info v = none ↔ 35 ≤ v) := by
  refine ⟨?_, ?_, ?_⟩
  · rw [tier_discount_eq, tier_discount_eq]
    split_ifs <;> omega
  · intro lbl rem h
    rw [next_tier_info_eq] at h
    split_ifs at h with h1 h2 h3 h4 <;>
      injection h with h' <;> injection h' with hl hr <;> subst hl
    · exact ⟨1, 3, by simp [TIERS], by omega, by omega⟩
    · exact ⟨5, 5, by simp [TIERS], by omega, by omega⟩
    · exact ⟨15, 7, by simp [TIERS], by omega, by omega⟩
    · exact ⟨35, 10, by simp [TIERS], by omega, by omega⟩
  · rw [next_tier_info_eq]
    split_ifs <;> simp <;> omega

/-- C9 witness: the statement evaluated at v = 3, w = 40. -/
theorem C9_tier_monotone_and_next_witness :
    (tier_for_visits 3).2 ≤ (tier_for_visits 40).2
    ∧ (∀ lbl rem, next_tier_info 3 = some (lbl, rem) →
        ∃ t d, (t, lbl, d) ∈ TIERS ∧ rem = t - 3 ∧ (3 : Int) < t)
    ∧ (next_tier_info 3 = none ↔ (35 : Int) ≤ 3) :=
  C9_tier_monotone_and_next 3 40 (by decide) (by decide)

/- ## C1 : leaderboard ordering -/

/-- A filterMap whose successful results are given by a total map is a sublist
of that map. -/
theorem filterMap_sublist_of_map {α β : Type} (f : α → Option β) (g : α → β)
    (l : List α) (h : ∀ a b, f a = some b → b = g a) :
    List.Sublist (l.filterMap f) (l.map g) := by
  induction l with
  | nil => simp
  | cons a t ih =>
    rw [List.filterMap_cons, List.map_cons]
    cases hfa : f a with
    | none => exact ih.cons _
    | some b => rw [h a b hfa]; exact ih.cons₂ _

/-- Sorting rows by `rowOrder` and truncating yields a list that is pairwise in
strictly descending (visits, user id) order, provided user ids are distinct. -/
theorem sorted_take_rows (rows : List Row) (n : Nat)
    (h : (rows.map Row.user_id).Nodup) :
    ((List.insertionSort rowOrder rows).take n).Pairwise
      (fun a b => b.visits < a.visits ∨ (a.visits = b.visits ∧ b.user_id < a.user_id)) := by
  have hs : ((List.insertionSort rowOrder rows).take n).Pairwise rowOrder :=
    (List.sorted_insertionSort rowOrder rows).sublist (List.take_sublist n _)
  have hperm : List.Perm (List.insertionSort rowOrder rows) rows :=
    List.perm_insertionSort _ _
  have hnd : (((List.insertionSort rowOrder rows).take n).map Row.user_id).Nodup := by
    rw [List.map_take]
    exact (((hperm.map Row.user_id).nodup_iff).2 h).sublist (List.take_sublist n _)
  have hne : ((List.insertionSort rowOrder rows).take n).Pairwise
      (fun a b => a.user_id ≠ b.user_id) := List.pairwise_map.mp hnd
  refine (hs.and hne).imp ?_
  intro a b hab
  rcases hab with ⟨h1 | ⟨h2, h3⟩, h4⟩
  · exact Or.inl h1
  · exact Or.inr ⟨h2, by omega⟩

/-- C1 (amended). The monthly leaderboard rows are ordered descending by
in-month visit count, and rows with equal counts are ordered by descending
(not ascending) user id: `rows.sort(key=(visits, user_id), reverse=True)`
reverses both components of the key. -/
theorem C1_leaderboard_order (store : Store) (year month : Int)
    (src? : Option String) (limit : Int) (active_only : Bool)
    (hN : (store.map Prod.fst).Nodup) :
    (top_users_by_visits_in_month store year month src? limit active_only).Pairwise
      (fun a b => b.visits < a.visits ∨ (a.visits = b.visits ∧ b.user_id < a.user_id)) := by
  unfold top_users_by_visits_in_month
  refine sorted_take_rows _ _ ?_
  rw [List.map_filterMap]
  refine List.Nodup.sublist (filterMap_sublist_of_map _ Prod.fst _ ?_) hN
  intro a b hab
  split_ifs at hab with h1 h2 <;> simp_all

/-- C1 witness: the amended statement at a concrete two-user store. -/
theorem C1_leaderboard_order_witness :
    (top_users_by_visits_in_month c1Store 2026 3 none 3 true).Pairwise
      (fun a b => b.visits < a.visits ∨ (a.visits = b.visits ∧ b.user_id < a.user_id)) :=
  C1_leaderboard_order c1Store 2026 3 none 3 true (by decide)

/-- C1 (counterexample). With users 1 and 2 tied at one visit each in March
2026, the returned rows are [user 2, user 1]: equal counts are ordered by
descending user id, refuting the claimed ascending tie-break. -/
theorem C1_counterexample :
    ¬ (top_users_by_visits_in_month c1Store 2026 3 none 3 true).Pairwise
      (fun a b => b.visits < a.visits ∨ (a.visits = b.visits ∧ a.user_id < b.user_id)) := by
  decide

/- ## C7 : broadcast cooldown filter -/

/-- The event-store folds compute the running maximum of the considered
timestamps. -/
theorem foldMax_gen {β : Type} (g : β → Option Int) (ignore : β → Bool)
    (l : List β) (init : Option Int) :
    l.foldl
      (fun last e =>
        if ignore e then last
        else
          match g e with
          | none => last
          | some t =>
            match last with
            | none => some t
            | some x => if x < t then some t else some x)
      init
    = foldMax init (l.filterMap fun e => if ignore e then none else g e) := by
  induction l generalizing init with
  | nil => rfl
  | cons e t ih =>
    rw [List.foldl_cons, List.filterMap_cons]
    cases hig : ignore e
    · cases hg : g e with
      | none => simp only [hig, hg, Bool.false_eq_true, if_false, ih]
      | some v =>
        simp only [hig, hg, Bool.false_eq_true, if_false, ih]
        rfl
    · simp only [hig, if_true, ih]

/-- View of `_last_broadcast_ts` through foldMax. -/
theorem last_broadcast_ts_eq (events : List BroadcastEvent) :
    last_broadcast_ts events = foldMax none (broadcastTsList events) := by
  unfold last_broadcast_ts broadcastTsList
  exact foldMax_gen (fun e => e.ts) (fun e => isIgnoredKind e.kind) events none

/-- View of `_last_visit_ts` through foldMax. -/
theorem last_visit_ts_eq (src? : Option String) (events : List VisitEvent) :
    last_visit_ts src? events = foldMax none (visitTsList src? events) := by
  unfold last_visit_ts visitTsList
  exact foldMax_gen (fun e => e.ts) (fun e => !matchesSrc src? e) events none

/-- A foldMax started from `some x` returns the maximum of x and the list. -/
theorem foldMax_some (x : Int) (l : List Int) :
    ∃ y, foldMax (some x) l = some y ∧ (y = x ∨ y ∈ l) ∧ x ≤ y ∧ ∀ t ∈ l, t ≤ y := by
  induction l generalizing x with
  | nil => exact ⟨x, rfl, Or.inl rfl, le_refl x, by simp⟩
  | cons t rest ih =>
    by_cases hxt : x < t
    · obtain ⟨y, hy, hmem, hle, hall⟩ := ih t
      refine ⟨y, ?_, ?_, by omega, ?_⟩
      · simpa [foldMax, hxt] using hy
      · rcases hmem with h | h
        · exact Or.inr (by simp [h])
        · exact Or.inr (List.mem_cons_of_mem t h)
      · intro s hs
        rcases List.mem_cons.mp hs with h | h
        · omega
        · exact hall s h
    · obtain ⟨y, hy, hmem, hle, hall⟩ := ih x
      refine ⟨y, ?_, ?_, hle, ?_⟩
      · simpa [foldMax, hxt] using hy
      · rcases hmem with h | h
        · exact Or.inl h
        · exact Or.inr (List.mem_cons_of_mem t h)
      · intro s hs
        rcases List.mem_cons.mp hs with h | h
        · omega
        · exact hall s h

/-- foldMax from `none` is `none` exactly on the empty list. -/
theorem foldMax_none_iff (l : List Int) : foldMax none l = none ↔ l = [] := by
  cases l with
  | nil => simp [foldMax]
  | cons t rest =>
    obtain ⟨y, hy, _, _, _⟩ := foldMax_some t rest
    constructor
    · intro h
      rw [show foldMax none (t :: rest) = foldMax (some t) rest from rfl, hy] at h
      cases h
    · intro h; cases h

/-- A foldMax result from `none` is the maximum element of the list. -/
theorem foldMax_none_some (l : List Int) (y : Int) (h : foldMax none l = some y) :
    y ∈ l ∧ ∀ t ∈ l, t ≤ y := by
  cases l with
  | nil => cases h
  | cons t rest =>
    obtain ⟨z, hz, hmem, hle, hall⟩ := foldMax_some t rest
    rw [show foldMax none (t :: rest) = foldMax (some t) rest from rfl, hz] at h
    injection h with h
    subst h
    constructor
    · rcases hmem with hm | hm
      · simp [hm]
      · exact List.mem_cons_of_mem t hm
    · intro s hs
      rcases List.mem_cons.mp hs with hm | hm
      · omega
      · exact hall s hm

/-- The cooldown predicate reads off the considered-timestamps view. -/
theorem recent_iff (cutoff : Int) (rec : UserRec) :
    recentNonExemptBroadcast cutoff rec =
      (broadcastTsList rec.broadcast_events).any fun t => decide (cutoff ≤ t) := by
  unfold recentNonExemptBroadcast broadcastTsList
  induction rec.broadcast_events with
  | nil => rfl
  | cons e t ih =>
    rw [List.any_cons, List.filterMap_cons]
    cases hig : isIgnoredKind e.kind
    · cases hts : e.ts
      · simpa [hts] using ih
      · simp [hts, List.any_cons, ih]
    · simpa using ih

/-- The per-user keep condition of the cooldown filter agrees with the
negation of the spec-side recent-broadcast predicate. -/
theorem keep_iff (cutoff : Int) (rec : UserRec) :
    (match last_broadcast_ts rec.broadcast_events with
     | none => true
     | some l => decide (l < cutoff)) = !recentNonExemptBroadcast cutoff rec := by
  rw [recent_iff]
  cases hlast : last_broadcast_ts rec.broadcast_events with
  | none =>
    have hnil : broadcastTsList rec.broadcast_events = [] := by
      rw [last_broadcast_ts_eq] at hlast
      exact (foldMax_none_iff _).1 hlast
    simp [hnil]
  | some l =>
    rw [last_broadcast_ts_eq] at hlast
    obtain ⟨hmem, hmax⟩ := foldMax_none_some _ _ hlast
    rcases lt_or_le l cutoff with h | h
    · have hany : ((broadcastTsList rec.broadcast_events).any fun t =>
          decide (cutoff ≤ t)) = false := by
        rw [List.any_eq_false]
        intro t ht
        have := hmax t ht
        simp
        omega
      simp [hany, h]
    · have hany : ((broadcastTsList rec.broadcast_events).any fun t =>
          decide (cutoff ≤ t)) = true :=
        List.any_eq_true.2 ⟨l, hmem, by simpa using h⟩
      simp [hany]
      omega

/-- C7 (confirmed). With a 7-day window, the cooldown filter keeps exactly the
ids with no record or no non-exempt broadcast event carrying a parseable
timestamp at or after the cutoff (order preserved); in particular a user whose
broadcast history is empty is always kept. -/
theorem C7_cooldown_filter (store : Store) (now : Int) (ids : List Int) :
    filter_user_ids_by_broadcast_cooldown store now ids 7 =
      ids.filter (fun uid =>
        match lookupUser store uid with
        | none => true
        | some rec => !recentNonExemptBroadcast (now - 7 * minutesPerDay) rec)
    ∧ ∀ uid rec, uid ∈ ids → lookupUser store uid = some rec →
        rec.broadcast_events = [] →
        uid ∈ filter_user_ids_by_broadcast_cooldown store now ids 7 := by
  have hfil : filter_user_ids_by_broadcast_cooldown store now ids 7 =
      ids.filter (fun uid =>
        match lookupUser store uid with
        | none => true
        | some rec => !recentNonExemptBroadcast (now - 7 * minutesPerDay) rec) := by
    unfold filter_user_ids_by_broadcast_cooldown
    refine List.filter_congr ?_
    intro uid _
    cases hlook : lookupUser store uid with
    | none => rfl
    | some rec => exact keep_iff (now - 7 * minutesPerDay) rec
  refine ⟨hfil, ?_⟩
  intro uid rec hid hlook hempty
  rw [hfil]
  refine List.mem_filter.2 ⟨hid, ?_⟩
  rw [hlook]
  have hrec : recentNonExemptBroadcast (now - 7 * minutesPerDay) rec = false := by
    unfold recentNonExemptBroadcast
    rw [hempty]
    rfl
  show (!recentNonExemptBroadcast (now - 7 * minutesPerDay) rec) = true
  rw [hrec]
  rfl

/-- C7 witness: user 1 of the concrete store has an empty broadcast history
and is kept by the filter. -/
theorem C7_cooldown_filter_witness :
    (1 : Int) ∈ filter_user_ids_by_broadcast_cooldown c1Store 0 [1] 7 :=
  (C7_cooldown_filter c1Store 0 [1]).2 1 (mkVisitUser 1 tsMarch2026)
    (by decide) rfl rfl

/- ## C8 : inactive-since segment -/

/-- C8 (confirmed). Every user returned by the Inactive-since(days) query has a
record in the store, is subscribed (not unsubscribed), has a non-empty visit
history, and has a latest considered visit timestamp strictly older than the
cutoff — hence every considered visit timestamp of that user is older than the
cutoff; users with zero visit events and users with a visit at or after the
cutoff never appear. -/
theorem C8_inactive_segment (store : Store) (now days : Int) (src? : Option String)
    (uid : Int) (h : uid ∈ users_last_visit_older_than_days store now days src?) :
    ∃ rec, (uid, rec) ∈ store ∧ rec.unsubscribed_at = none
      ∧ rec.visit_events ≠ []
      ∧ (∃ l, last_visit_ts src? rec.visit_events = some l
          ∧ l < now - days * minutesPerDay)
      ∧ ∀ t ∈ visitTsList src? rec.visit_events, t < now - days * minutesPerDay := by
  unfold users_last_visit_older_than_days at h
  rw [List.mem_filterMap] at h
  obtain ⟨⟨uid', rec⟩, hmem, hf⟩ := h
  by_cases h1 : rec.unsubscribed_at.isSome
  · rw [if_pos h1] at hf
    cases hf
  · rw [if_neg h1] at hf
    cases hlast : last_visit_ts src? rec.visit_events with
    | none =>
      rw [hlast] at hf
      cases hf
    | some l =>
      rw [hlast] at hf
      dsimp only at hf
      by_cases h2 : l < now - days * minutesPerDay
      · rw [if_pos h2] at hf
        injection hf with hf
        subst hf
        refine ⟨rec, hmem, Option.not_isSome_iff_eq_none.1 h1, ?_, ⟨l, hlast, h2⟩, ?_⟩
        · intro hnil
          rw [hnil] at hlast
          cases hlast
        · intro t ht
          rw [last_visit_ts_eq] at hlast
          obtain ⟨_, hmax⟩ := foldMax_none_some _ _ hlast
          have := hmax t ht
          omega
      · rw [if_neg h2] at hf
        cases hf

/-- C8 witness: user 1 of the concrete store, whose only visit is 20 days
before `now`, is returned by the 7-day query and satisfies the properties. -/
theorem C8_inactive_segment_witness :
    ∃ rec, ((1 : Int), rec) ∈ c1Store ∧ rec.unsubscribed_at = none
      ∧ rec.visit_events ≠ []
      ∧ (∃ l, last_visit_ts none rec.visit_events = some l
          ∧ l < (tsMarch2026 + 20 * 1440) - 7 * minutesPerDay)
      ∧ ∀ t ∈ visitTsList none rec.visit_events,
          t < (tsMarch2026 + 20 * 1440) - 7 * minutesPerDay :=
  C8_inactive_segment c1Store (tsMarch2026 + 20 * 1440) 7 none 1 (by decide)

/- ## C6 : card number allocation -/

/-- A successful random-phase result is a fresh formatted draw. -/
theorem randPhase_some (used : List String) (draws : List Nat) (s : String)
    (h : randPhase used draws = some s) :
    s ∉ used ∧ ∃ d ∈ draws, is_bad_number d = false ∧ s = fmt4 d := by
  induction draws with
  | nil => cases h
  | cons d rest ih =>
    unfold randPhase at h
    by_cases hbad : is_bad_number d
    · rw [if_pos hbad] at h
      obtain ⟨hs, d', hd', hprops⟩ := ih h
      exact ⟨hs, d', List.mem_cons_of_mem d hd', hprops⟩
    · rw [if_neg hbad] at h
      by_cases hused : fmt4 d ∈ used
      · rw [if_pos hused] at h
        obtain ⟨hs, d', hd', hprops⟩ := ih h
        exact ⟨hs, d', List.mem_cons_of_mem d hd', hprops⟩
      · rw [if_neg hused] at h
        injection h with h
        subst h
        exact ⟨hused, d, List.mem_cons_self d rest,
          Bool.not_eq_true _ ▸ eq_false_of_ne_true hbad, rfl⟩

/-- The random phase fails when every draw is a repdigit or collides. -/
theorem randPhase_none (used : List String) (draws : List Nat)
    (h : ∀ d ∈ draws, is_bad_number d = true ∨ fmt4 d ∈ used) :
    randPhase used draws = none := by
  induction draws with
  | nil => rfl
  | cons d rest ih =>
    unfold randPhase
    have hd := h d (List.mem_cons_self d rest)
    have hrest : ∀ x ∈ rest, is_bad_number x = true ∨ fmt4 x ∈ used :=
      fun x hx => h x (List.mem_cons_of_mem d hx)
    by_cases hbad : is_bad_number d
    · rw [if_pos hbad]
      exact ih hrest
    · rcases hd with hd | hd
      · exact absurd hd hbad
      · rw [if_neg hbad, if_pos hd]
        exact ih hrest

/-- A successful scan result is a fresh non-repdigit number in range. -/
theorem scanPhase_some (used : List String) (s : String)
    (h : scanPhase used = some s) :
    s ∉ used ∧ ∃ n, 10 ≤ n ∧ n ≤ 9998 ∧ is_bad_number n = false ∧ s = fmt4 n := by
  unfold scanPhase at h
  cases hfind : (List.range' 10 9989).find? fun n =>
      !is_bad_number n && decide (fmt4 n ∉ used) with
  | none => rw [hfind] at h; cases h
  | some n =>
    rw [hfind] at h
    injection h with h
    subst h
    have hp := List.find?_some hfind
    have hmem := List.mem_of_find?_eq_some hfind
    rw [List.mem_range'_1] at hmem
    rw [Bool.and_eq_true, Bool.not_eq_true', decide_eq_true_iff] at hp
    exact ⟨hp.2, n, hmem.1, by omega, hp.1, rfl⟩

/-- The scan fails exactly when every non-repdigit number in range is used. -/
theorem scanPhase_none_iff (used : List String) :
    scanPhase used = none ↔
      ∀ n, 10 ≤ n → n ≤ 9998 → is_bad_number n = false → fmt4 n ∈ used := by
  unfold scanPhase
  rw [Option.map_eq_none', List.find?_eq_none]
  constructor
  · intro h n h10 h9998 hbad
    have := h n (List.mem_range'_1.2 ⟨h10, by omega⟩)
    rw [Bool.and_eq_true, Bool.not_eq_true', decide_eq_true_iff] at this
    by_contra hnot
    exact this ⟨hbad, hnot⟩
  · intro h n hn
    rw [List.mem_range'_1] at hn
    rw [Bool.and_eq_true, Bool.not_eq_true', decide_eq_true_iff]
    rintro ⟨hbad, hnot⟩
    exact hnot (h n hn.1 (by omega) hbad)

/-- A successful allocation never returns a used number. -/
theorem alloc_not_used (used : List String) (draws : List Nat) (s : String)
    (h : alloc_random_card_number used draws = some s) : s ∉ used := by
  unfold alloc_random_card_number at h
  cases hr : randPhase used draws with
  | some s' =>
    rw [hr] at h
    injection h with h
    subst h
    exact (randPhase_some used draws s' hr).1
  | none =>
    rw [hr] at h
    exact (scanPhase_some used s h).1

/-- C6 (confirmed). Under draws in the documented range [10, 9998]: a
successful allocation returns a fresh, non-repdigit, 4-digit formatted number
in [0010, 9998]; allocation fails (the fatal RuntimeError) if and only if every
non-repdigit number in the range is already used; and allocating a sequence of
cards yields pairwise-distinct numbers, none of them previously used. -/
theorem C6_card_allocation (draws : List Nat) (used : List String)
    (dss : List (List Nat)) (l : List String)
    (hdr : ∀ d ∈ draws, 10 ≤ d ∧ d ≤ 9998) :
    (∀ s, alloc_random_card_number used draws = some s →
        s ∉ used ∧ ∃ n, 10 ≤ n ∧ n ≤ 9998 ∧ is_bad_number n = false ∧ s = fmt4 n)
    ∧ (alloc_random_card_number used draws = none ↔
        ∀ n, 10 ≤ n → n ≤ 9998 → is_bad_number n = false → fmt4 n ∈ used)
    ∧ (allocCards used dss = some l → l.Nodup ∧ ∀ s ∈ l, s ∉ used) := by
  refine ⟨?_, ?_, ?_⟩
  · intro s h
    unfold alloc_random_card_number at h
    cases hr : randPhase used draws with
    | some s' =>
      rw [hr] at h
      injection h with h
      subst h
      obtain ⟨hs, d, hd, hbad, heq⟩ := randPhase_some used draws s' hr
      exact ⟨hs, d, (hdr d hd).1, (hdr d hd).2, hbad, heq⟩
    | none =>
      rw [hr] at h
      exact scanPhase_some used s h
  · unfold alloc_random_card_number
    constructor
    · intro h
      cases hr : randPhase used draws with
      | some s' => rw [hr] at h; cases h
      | none =>
        rw [hr] at h
        exact (scanPhase_none_iff used).1 h
    · intro h
      have hrand : randPhase used draws = none := by
        refine randPhase_none used draws ?_
        intro d hd
        by_cases hbad : is_bad_number d
        · exact Or.inl hbad
        · exact Or.inr (h d (hdr d hd).1 (hdr d hd).2
            (eq_false_of_ne_true hbad))
      rw [hrand]
      exact (scanPhase_none_iff used).2 h
  · clear hdr
    induction dss generalizing used l with
    | nil =>
      intro h
      injection h with h
      subst h
      exact ⟨List.nodup_nil, by simp⟩
    | cons ds rest ih =>
      intro h
      unfold allocCards at h
      cases ha : alloc_random_card_number used ds with
      | none => rw [ha] at h; cases h
      | some s =>
        rw [ha] at h
        dsimp only at h
        cases hrest : allocCards (s :: used) rest with
        | none => rw [hrest] at h; cases h
        | some l' =>
          rw [hrest] at h
          injection h with h
          subst h
          obtain ⟨hnd, hfresh⟩ := ih (s :: used) l' hrest
          have hsu : s ∉ used := alloc_not_used used ds s ha
          refine ⟨List.nodup_cons.2 ⟨?_, hnd⟩, ?_⟩
          · intro hin
            exact (hfresh s hin) (List.mem_cons_self s used)
          · intro x hx
            rcases List.mem_cons.mp hx with hx | hx
            · subst hx; exact hsu
            · intro hxu
              exact (hfresh x hx) (List.mem_cons_of_mem s hxu)

/-- C6 witness: concrete draws and an allocation of two cards ("0020" by the
random phase, then "0010" by the fallback scan). -/
theorem C6_card_allocation_witness :
    (∀ s, alloc_random_card_number [] [15] = some s →
        s ∉ ([] : List String)
        ∧ ∃ n, 10 ≤ n ∧ n ≤ 9998 ∧ is_bad_number n = false ∧ s = fmt4 n)
    ∧ (alloc_random_card_number [] [15] = none ↔
        ∀ n, 10 ≤ n → n ≤ 9998 → is_bad_number n = false → fmt4 n ∈ ([] : List String))
    ∧ (allocCards [] [[20], [20]] = some ["0020", "0010"] →
        (["0020", "0010"] : List String).Nodup
        ∧ ∀ s ∈ (["0020", "0010"] : List String), s ∉ ([] : List String)) :=
  C6_card_allocation [15] [] [[20], [20]] ["0020", "0010"] (by decide)

/- ## C5 : staff get no rewards -/

/-- C5 (confirmed). Any user id in the staff set gets bonus 0 and no medals,
unconditionally: both functions test competition eligibility first. -/
theorem C5_staff_zero_rewards (superIds : List Int) (admins : List AdminRec)
    (store : Store) (botSource : String) (nowY nowM uid : Int)
    (h : uid ∈ staff_user_ids_known superIds admins store) :
    bonus_discount_for_user superIds admins store botSource nowY nowM uid = 0
    ∧ medals_for_user superIds admins store botSource nowY nowM uid = "" := by
  have he : is_eligible_for_competitions
      (staff_user_ids_known superIds admins store) uid = false := by
    unfold is_eligible_for_competitions
    simp [h]
  constructor
  · unfold bonus_discount_for_user
    simp [he]
  · unfold medals_for_user
    simp [he]

/-- C5 witness: a concrete superadmin is in the staff set and gets nothing. -/
theorem C5_staff_zero_rewards_witness :
    (10 : Int) ∈ staff_user_ids_known [10] [] []
    ∧ bonus_discount_for_user [10] [] [] "lounge" 2026 4 10 = 0
    ∧ medals_for_user [10] [] [] "lounge" 2026 4 10 = "" :=
  ⟨by decide,
   (C5_staff_zero_rewards [10] [] [] "lounge" 2026 4 10 (by decide)).1,
   (C5_staff_zero_rewards [10] [] [] "lounge" 2026 4 10 (by decide)).2⟩

/- ## C4 : launch-month gating -/

/-- Months generated by the iterator are at or after its start month. -/
theorem monthsFrom_le (n : Nat) : ∀ (y m : Int), m ≤ 12 →
    ∀ p ∈ monthsFrom n y m, monthPairLe (y, m) p := by
  induction n with
  | zero =>
    intro y m _ p hp
    cases hp
  | succ k ih =>
    intro y m hm p hp
    unfold monthsFrom at hp
    rcases List.mem_cons.mp hp with h | h
    · subst h
      exact Or.inr ⟨rfl, le_refl _⟩
    · by_cases h12 : m = 12
      · rw [if_pos h12] at h
        have := ih (y + 1) 1 (by omega) p h
        unfold monthPairLe at this ⊢
        omega
      · rw [if_neg h12] at h
        have := ih y (m + 1) (by omega) p h
        unfold monthPairLe at this ⊢
        omega

/-- C4 (amended). When the previous month precedes the launch month
(March 2026), the monthly bonus map is empty and every user's medal string is
empty; and the medal iteration only ever visits months at or after March 2026.
The leaderboard function itself, however, has no launch gate (see the
counterexample). -/
theorem C4_launch_gate (superIds : List Int) (admins : List AdminRec) (store : Store)
    (botSource : String) (nowY nowM uid ey em : Int)
    (h : monthPairLt (prev_month nowY nowM) (2026, 3)) :
    monthly_bonus_map_for_prev_month superIds admins store botSource nowY nowM = []
    ∧ medals_for_user superIds admins store botSource nowY nowM uid = ""
    ∧ ∀ p ∈ iter_months_inclusive 2026 3 ey em, ¬ monthPairLt p (2026, 3) := by
  refine ⟨?_, ?_, ?_⟩
  · unfold monthly_bonus_map_for_prev_month
    simp [h]
  · by_cases huid : uid ∈ staff_user_ids_known superIds admins store
    · unfold medals_for_user is_eligible_for_competitions
      simp [huid]
    · unfold medals_for_user is_eligible_for_competitions
      simp [huid, h]
  · intro p hp
    unfold iter_months_inclusive at hp
    by_cases hle : monthPairLe (2026, 3) (ey, em)
    · rw [if_pos hle] at hp
      have := monthsFrom_le _ 2026 3 (by omega) p hp
      unfold monthPairLe at this
      unfold monthPairLt
      omega
    · rw [if_neg hle] at hp
      cases hp

/-- C4 witness: with the clock in March 2026 the previous month (February 2026)
predates launch, so the bonus map is empty and medals are empty. -/
theorem C4_launch_gate_witness :
    monthly_bonus_map_for_prev_month [10] [] c4Store "lounge" 2026 3 = []
    ∧ medals_for_user [10] [] c4Store "lounge" 2026 3 1 = ""
    ∧ ∀ p ∈ iter_months_inclusive 2026 3 2026 5, ¬ monthPairLt p (2026, 3) :=
  C4_launch_gate [10] [] c4Store "lounge" 2026 3 1 2026 5 (by decide)

/-- C4 (counterexample). February 2026 is strictly before the launch month, yet
the monthly leaderboard for it is non-empty on a store with a February visit:
`top_users_by_visits_in_month` applies no launch-month gate. -/
theorem C4_counterexample :
    monthPairLt (2026, 2) (2026, 3)
    ∧ top_users_by_visits_in_month c4Store 2026 2 none 3 true = [⟨1, 1⟩] := by
  constructor
  · decide
  · decide

/- ## C3 : reward slots and staff -/

/-- Every bonus-map entry is a non-staff user drawn from the fetched rows. -/
theorem bonusAssign_sound (staff : List Int) (rows : List Row) :
    ∀ (place : Nat) (p : Int × Int), p ∈ bonusAssign staff place rows →
      p.1 ∉ staff ∧ p.1 ∈ rows.map Row.user_id := by
  induction rows with
  | nil =>
    intro place p hp
    cases hp
  | cons r rest ih =>
    intro place p hp
    unfold bonusAssign at hp
    by_cases hs : r.user_id ∈ staff
    · rw [if_pos hs] at hp
      obtain ⟨h1, h2⟩ := ih place p hp
      exact ⟨h1, by rw [List.map_cons]; exact List.mem_cons_of_mem _ h2⟩
    · rw [if_neg hs] at hp
      rcases List.mem_cons.mp hp with h | h
      · subst h
        exact ⟨hs, by rw [List.map_cons]; exact List.mem_cons_self _ _⟩
      · by_cases h3 : place + 1 ≥ 3
        · rw [if_pos h3] at h
          cases h
        · rw [if_neg h3] at h
          obtain ⟨h1, h2⟩ := ih (place + 1) p h
          exact ⟨h1, by rw [List.map_cons]; exact List.mem_cons_of_mem _ h2⟩

/-- When there is room (place + rows ≤ 3), every non-staff row gets a slot. -/
theorem bonusAssign_complete (staff : List Int) (rows : List Row) :
    ∀ place : Nat, place + rows.length ≤ 3 → ∀ r ∈ rows, r.user_id ∉ staff →
      r.user_id ∈ (bonusAssign staff place rows).map Prod.fst := by
  induction rows with
  | nil =>
    intro place _ r hr
    cases hr
  | cons a rest ih =>
    intro place hlen r hr hstaff
    rw [List.length_cons] at hlen
    unfold bonusAssign
    by_cases hs : a.user_id ∈ staff
    · rw [if_pos hs]
      rcases List.mem_cons.mp hr with h | h
      · subst h
        exact absurd hs hstaff
      · exact ih place (by omega) r h hstaff
    · rw [if_neg hs]
      rcases List.mem_cons.mp hr with h | h
      · subst h
        rw [List.map_cons]
        exact List.mem_cons_self _ _
      · have hpos : 0 < rest.length := List.length_pos.2 (List.ne_nil_of_mem h)
        have h3 : ¬ place + 1 ≥ 3 := by omega
        rw [if_neg h3, List.map_cons]
        exact List.mem_cons_of_mem _ (ih (place + 1) (by omega) r h hstaff)

/-- The leaderboard called with limit 3 returns at most 3 rows. -/
theorem top_users_length_le (store : Store) (y m : Int) (src? : Option String)
    (ao : Bool) : (top_users_by_visits_in_month store y m src? 3 ao).length ≤ 3 := by
  unfold top_users_by_visits_in_month
  exact le_trans (List.length_take_le _ _) (by decide)

/-- C3 (amended). From the launch month on, the bonus map never contains a
staff user, and its entries come from the rows of the overall (staff-inclusive)
top-3 leaderboard; conversely every non-staff user among those top-3 rows gets
a slot.  Slots are therefore NOT guaranteed to the three highest-counting
non-staff users: the limit-3 truncation happens before staff filtering, so a
staff account inside the overall top 3 leaves fewer than three rewarded users
(see the counterexample). -/
theorem C3_reward_slots (superIds : List Int) (admins : List AdminRec)
    (store : Store) (botSource : String) (nowY nowM : Int)
    (hl : ¬ monthPairLt (prev_month nowY nowM) (2026, 3)) :
    (∀ p, p ∈ monthly_bonus_map_for_prev_month superIds admins store botSource nowY nowM →
        p.1 ∉ staff_user_ids_known superIds admins store
        ∧ p.1 ∈ (top_users_by_visits_in_month store (prev_month nowY nowM).1
            (prev_month nowY nowM).2 (some botSource) 3 false).map Row.user_id)
    ∧ (∀ r, r ∈ top_users_by_visits_in_month store (prev_month nowY nowM).1
          (prev_month nowY nowM).2 (some botSource) 3 false →
        r.user_id ∉ staff_user_ids_known superIds admins store →
        r.user_id ∈ (monthly_bonus_map_for_prev_month superIds admins store
            botSource nowY nowM).map Prod.fst) := by
  have hbm : monthly_bonus_map_for_prev_month superIds admins store botSource nowY nowM
      = bonusAssign (staff_user_ids_known superIds admins store) 0
          (top_users_by_visits_in_month store (prev_month nowY nowM).1
            (prev_month nowY nowM).2 (some botSource) 3 false) := by
    unfold monthly_bonus_map_for_prev_month
    simp [hl]
  constructor
  · intro p hp
    rw [hbm] at hp
    exact bonusAssign_sound _ _ 0 p hp
  · intro r hr hstaff
    rw [hbm]
    refine bonusAssign_complete _ _ 0 ?_ r hr hstaff
    have := top_users_length_le store (prev_month nowY nowM).1
      (prev_month nowY nowM).2 (some botSource) false
    omega

/-- C3 witness: in the concrete store, user 20 (the best non-staff user) is
non-staff, appears in the top-3 rows, and holds a bonus slot. -/
theorem C3_reward_slots_witness :
    (20 : Int) ∉ staff_user_ids_known [10] [] c3Store
    ∧ (20 : Int) ∈ (top_users_by_visits_in_month c3Store 2026 3
        (some "lounge") 3 false).map Row.user_id :=
  (C3_reward_slots [10] [] c3Store "lounge" 2026 4 (by decide)).1
    (20, 10) (by decide)

/-- C3 (counterexample). Staff user 10 tops March 2026 (full ranking
10 > 20 > 30 > 40), so the fetched top-3 rows are 10, 20, 30; only 20 and 30
receive bonus slots, and user 40 — the third-highest non-staff user, with a
non-zero in-month count — receives nothing, refuting the claim that the three
reward slots always go to the three highest-counting non-staff users. -/
theorem C3_counterexample :
    (monthly_bonus_map_for_prev_month [10] [] c3Store "lounge" 2026 4).map Prod.fst
        = [20, 30]
    ∧ (40 : Int) ∉ staff_user_ids_known [10] [] c3Store
    ∧ top_users_by_visits_in_month c3Store 2026 3 (some "lounge") 10 false
        = [⟨10, 4⟩, ⟨20, 3⟩, ⟨30, 2⟩, ⟨40, 1⟩]
    ∧ bonus_discount_for_user [10] [] c3Store "lounge" 2026 4 40 = 0 := by
  exact ⟨by decide, by decide, by decide, by decide⟩

/- ## C10 : invariance under unsubscribed_at -/

/-- filterMap respects a pointwise-agreeing relation between two lists. -/
theorem filterMap_congr_forall₂ {α β : Type} (R : α → α → Prop) (f : α → Option β)
    (hf : ∀ a b, R a b → f a = f b) :
    ∀ l1 l2, List.Forall₂ R l1 l2 → l1.filterMap f = l2.filterMap f := by
  intro l1 l2 h
  induction h with
  | nil => rfl
  | cons hab _ ih => rw [List.filterMap_cons, List.filterMap_cons, hf _ _ hab, ih]

/-- With `active_only` disabled the leaderboard reads only user ids and visit
events: two stores agreeing on those produce identical rows. -/
theorem top_users_congr (s1 s2 : Store) (y m : Int) (src? : Option String)
    (limit : Int)
    (hagree : List.Forall₂
      (fun a b : Int × UserRec => a.1 = b.1 ∧ a.2.visit_events = b.2.visit_events)
      s1 s2) :
    top_users_by_visits_in_month s1 y m src? limit false
      = top_users_by_visits_in_month s2 y m src? limit false := by
  unfold top_users_by_visits_in_month
  refine congrArg (fun rows => (List.insertionSort rowOrder rows).take _) ?_
  refine filterMap_congr_forall₂ _ _ ?_ s1 s2 hagree
  intro a b hab
  obtain ⟨h1, h2⟩ := hab
  simp [h1, h2]

/-- C10 (amended). The bonus and medal computations are invariant under
changes confined to fields other than user ids and visit events — in
particular `unsubscribed_at` — PROVIDED the computed staff set is unchanged.
The leaderboard they use runs with `active_only` disabled, so unsubscribed
users' visits count fully; but the staff set itself is derived from active
users (username matching), which is where `unsubscribed_at` can still leak in
(see the counterexample). -/
theorem C10_unsub_invariance (superIds : List Int) (admins : List AdminRec)
    (s1 s2 : Store) (botSource : String) (nowY nowM uid : Int)
    (hagree : List.Forall₂
      (fun a b : Int × UserRec => a.1 = b.1 ∧ a.2.visit_events = b.2.visit_events)
      s1 s2)
    (hstaff : staff_user_ids_known superIds admins s1
      = staff_user_ids_known superIds admins s2) :
    bonus_discount_for_user superIds admins s1 botSource nowY nowM uid
      = bonus_discount_for_user superIds admins s2 botSource nowY nowM uid
    ∧ medals_for_user superIds admins s1 botSource nowY nowM uid
      = medals_for_user superIds admins s2 botSource nowY nowM uid := by
  have htop : ∀ y m : Int, top_users_by_visits_in_month s1 y m (some botSource) 3 false
      = top_users_by_visits_in_month s2 y m (some botSource) 3 false :=
    fun y m => top_users_congr s1 s2 y m (some botSource) 3 hagree
  have hbm : monthly_bonus_map_for_prev_month superIds admins s1 botSource nowY nowM
      = monthly_bonus_map_for_prev_month superIds admins s2 botSource nowY nowM := by
    unfold monthly_bonus_map_for_prev_month
    rw [hstaff]
    simp only [htop]
  constructor
  · simp only [bonus_discount_for_user]
    rw [hstaff, hbm]
  · simp only [medals_for_user]
    rw [hstaff]
    simp only [htop]

/-- C10 witness: the amended statement at two concrete single-user stores that
differ only in `unsubscribed_at` and whose staff set (superadmin 10) is
unchanged. -/
theorem C10_unsub_invariance_witness :
    bonus_discount_for_user [10] [] c4Store "lounge" 2026 4 1
      = bonus_discount_for_user [10] [] c4StoreUnsub "lounge" 2026 4 1
    ∧ medals_for_user [10] [] c4Store "lounge" 2026 4 1
      = medals_for_user [10] [] c4StoreUnsub "lounge" 2026 4 1 :=
  C10_unsub_invariance [10] [] c4Store c4StoreUnsub "lounge" 2026 4 1
    (List.Forall₂.cons ⟨rfl, rfl⟩ List.Forall₂.nil) (by decide)

/-- C10 (counterexample). User 10 is staff only through the active-username
match with admin "boss" (no synced id).  Marking user 10 unsubscribed — a
change to another user's `unsubscribed_at` only — removes 10 from the staff
set, so 10 starts occupying reward slot 1 and the bonus of the untouched
non-staff user 20 drops from 10 to 6: the claimed two-run invariance fails. -/
theorem C10_counterexample :
    bonus_discount_for_user [999] c10Admins c10StoreA "lounge" 2026 4 20 = 10
    ∧ bonus_discount_for_user [999] c10Admins c10StoreB "lounge" 2026 4 20 = 6
    ∧ (20 : Int) ∉ staff_user_ids_known [999] c10Admins c10StoreA
    ∧ (20 : Int) ∉ staff_user_ids_known [999] c10Admins c10StoreB := by
  exact ⟨by decide, by decide, by decide, by decide⟩
